import Mathlib

/-!
Verification development for the machine-handle test driver
(nixos/lib/test-driver/lib/machine.py).

Each Python function that a claim depends on is embedded as an executable
Lean definition, translated from the source.  Machine state is modelled as
an explicit record, socket reads as lists of chunks, the serial queue as a
line oracle, and Python exceptions as Except / dedicated outcome types.
-/

/- ------------------------------------------------------------------
Machine lifecycle (Machine.start, connect, shutdown, crash, release,
_wait_for_shutdown).  Only the fields the lifecycle touches are modelled:
booted, connected, pid.  The pid assigned by a successful boot is an
argument, standing for process.pid.
------------------------------------------------------------------- -/

structure MState where
  booted : Bool
  connected : Bool
  pid : Option Nat
deriving DecidableEq, Repr

/-- The state of a freshly constructed handle: not booted, not connected,
no pid recorded. -/
def freshState : MState := { booted := false, connected := false, pid := none }

/-- Embedding of Machine.start: returns immediately when already booted,
otherwise boots (sockets, subprocess, serial reader elided from the state
model) and records the pid and booted flag.  connected is untouched. -/
def Machine.start (newPid : Nat) (s : MState) : MState :=
  if s.booted then s
  else { s with booted := true, pid := some newPid }

/-- Embedding of Machine._wait_for_shutdown: returns immediately when not
booted, otherwise waits for the subprocess and clears pid, booted and
connected. -/
def Machine.waitForShutdown (s : MState) : MState :=
  if !s.booted then s
  else { booted := false, connected := false, pid := none }

/-- Embedding of Machine.connect: returns immediately when already
connected, otherwise drives start and then marks the shell connected
(the priming shell read is elided from the state model). -/
def Machine.connect (newPid : Nat) (s : MState) : MState :=
  if s.connected then s
  else { Machine.start newPid s with connected := true }

/-- Embedding of Machine.shutdown: no-op when not booted; otherwise sends
poweroff on the shell stream and waits for shutdown. -/
def Machine.shutdown (s : MState) : MState :=
  if !s.booted then s else Machine.waitForShutdown s

/-- Embedding of Machine.crash: no-op when not booted; otherwise sends the
monitor quit command and waits for shutdown. -/
def Machine.crash (s : MState) : MState :=
  if !s.booted then s else Machine.waitForShutdown s

/-- Embedding of Machine.release: when no pid is held it returns without
doing anything; otherwise it kills the subprocess.  The Boolean records
whether the kill was performed.  The code mutates none of the state
fields. -/
def Machine.release (s : MState) : MState × Bool :=
  match s.pid with
  | none => (s, false)
  | some _ => (s, true)

/-- One public lifecycle operation, with the pid a boot would assign. -/
inductive MOp where
  | start (pid : Nat)
  | connect (pid : Nat)
  | shutdown
  | crash
  | release
deriving DecidableEq, Repr

/-- Apply one lifecycle operation to a state. -/
def stepOp (s : MState) : MOp → MState
  | MOp.start p => Machine.start p s
  | MOp.connect p => Machine.connect p s
  | MOp.shutdown => Machine.shutdown s
  | MOp.crash => Machine.crash s
  | MOp.release => (Machine.release s).1

/-- Run a sequence of lifecycle operations from a state. -/
def runOps (s : MState) (ops : List MOp) : MState := ops.foldl stepOp s

/-- The handle invariant: connected implies booted, and booted implies a
pid is held. -/
def MInv (s : MState) : Prop :=
  (s.connected = true → s.booted = true) ∧ (s.booted = true → s.pid.isSome = true)

theorem mInv_fresh : MInv freshState := by
  constructor <;> intro h <;> simp [freshState] at h

theorem mInv_step (s : MState) (op : MOp) (h : MInv s) : MInv (stepOp s op) := by
  obtain ⟨hc, hb⟩ := h
  cases op with
  | start p =>
    by_cases hB : s.booted = true
    · simp only [stepOp, Machine.start, hB, if_true]
      exact ⟨hc, hb⟩
    · simp [stepOp, Machine.start, hB, MInv]
  | connect p =>
    by_cases hC : s.connected = true
    · simp only [stepOp, Machine.connect, hC, if_true]
      exact ⟨hc, hb⟩
    · by_cases hB : s.booted = true
      · simp [stepOp, Machine.connect, Machine.start, hC, hB, MInv]
        exact hb hB
      · simp [stepOp, Machine.connect, Machine.start, hC, hB, MInv]
  | shutdown =>
    by_cases hB : s.booted = true
    · simp [stepOp, Machine.shutdown, Machine.waitForShutdown, hB, MInv]
    · have hB2 : s.booted = false := by simpa using hB
      simp only [stepOp, Machine.shutdown, Machine.waitForShutdown, hB2, Bool.not_false, if_true]
      exact ⟨hc, hb⟩
  | crash =>
    by_cases hB : s.booted = true
    · simp [stepOp, Machine.crash, Machine.waitForShutdown, hB, MInv]
    · have hB2 : s.booted = false := by simpa using hB
      simp only [stepOp, Machine.crash, Machine.waitForShutdown, hB2, Bool.not_false, if_true]
      exact ⟨hc, hb⟩
  | release =>
    cases hP : s.pid <;> simp only [stepOp, Machine.release, hP] <;> exact ⟨hc, hb⟩

theorem mInv_runOps (ops : List MOp) (s : MState) (h : MInv s) : MInv (runOps s ops) := by
  induction ops generalizing s with
  | nil => exact h
  | cons op rest ih => exact ih (stepOp s op) (mInv_step s op h)

/- ------------------------------------------------------------------
retry (the scheduler).  The predicate is modelled as a function from the
call index (0-based) and the is_last_attempt flag to the Boolean result.
retryRun returns the trace of calls, each recorded as the pair
(is_last_attempt flag passed, result returned), together with the raised
timeout error (some timeout) when the loop raised.  time.sleep is elided:
it does not affect the call pattern.
------------------------------------------------------------------- -/

/-- Loop of retry with remaining budget as fuel; i is the index of the
next call; the Boolean result records whether the final raise fired. -/
def retryGo (p : Nat → Bool → Bool) (i : Nat) : Nat → List (Bool × Bool) × Bool
  | 0 =>
    let r := p i true
    ([(true, r)], !r)
  | n + 1 =>
    let r := p i false
    if r then ([(false, true)], false)
    else
      let rest := retryGo p (i + 1) n
      ((false, false) :: rest.1, rest.2)

/-- Embedding of retry: calls p(false) up to timeout times, then p(true)
once; the second component is the raised error, carrying the timeout. -/
def retryRun (p : Nat → Bool → Bool) (timeout : Nat) : List (Bool × Bool) × Option Nat :=
  let r := retryGo p 0 timeout
  (r.1, if r.2 then some timeout else none)

theorem retryGo_length (p : Nat → Bool → Bool) (n i : Nat) :
    1 ≤ (retryGo p i n).1.length ∧ (retryGo p i n).1.length ≤ n + 1 := by
  induction n generalizing i with
  | zero => simp [retryGo]
  | succ m ih =>
    simp only [retryGo]
    by_cases h : p i false = true
    · simp [h]
    · simp only [h, Bool.false_eq_true, if_false, List.length_cons]
      have := ih (i + 1)
      omega

theorem retryGo_all_false (p : Nat → Bool → Bool) (n i : Nat)
    (h : ∀ j, j < n → p (i + j) false = false) :
    retryGo p i n = (List.replicate n (false, false) ++ [(true, p (i + n) true)],
      !(p (i + n) true)) := by
  induction n generalizing i with
  | zero => simp [retryGo]
  | succ m ih =>
    have h0 : p i false = false := by simpa using h 0 (by omega)
    have hrec := ih (i + 1) (fun j hj => by
      have := h (j + 1) (by omega)
      simpa [Nat.add_assoc, Nat.add_comm 1 j] using this)
    simp only [retryGo, h0, Bool.false_eq_true, if_false, hrec]
    have harr : i + 1 + m = i + (m + 1) := by omega
    rw [harr]
    simp [List.replicate_succ]

theorem retryGo_early (p : Nat → Bool → Bool) (k : Nat) :
    ∀ n i, k < n → (∀ j, j < k → p (i + j) false = false) → p (i + k) false = true →
    retryGo p i n = (List.replicate k (false, false) ++ [(false, true)], false) := by
  induction k with
  | zero =>
    intro n i hk hall htrue
    obtain ⟨m, rfl⟩ : ∃ m, n = m + 1 := ⟨n - 1, by omega⟩
    simp only [retryGo]
    simp only [Nat.add_zero] at htrue
    simp [htrue]
  | succ k ih =>
    intro n i hk hall htrue
    obtain ⟨m, rfl⟩ : ∃ m, n = m + 1 := ⟨n - 1, by omega⟩
    have h0 : p i false = false := by simpa using hall 0 (by omega)
    have hrec := ih m (i + 1) (by omega)
      (fun j hj => by
        have := hall (j + 1) (by omega)
        simpa [Nat.add_assoc, Nat.add_comm 1 j] using this)
      (by
        have : i + 1 + k = i + (k + 1) := by omega
        rw [this]; exact htrue)
    simp only [retryGo, h0, Bool.false_eq_true, if_false, hrec]
    simp [List.replicate_succ]

theorem retryGo_last_flag (p : Nat → Bool → Bool) (n : Nat) :
    ∀ i, ((retryGo p i n).1.getLast?.map Prod.fst = some true) ↔
      (∀ j, j < n → p (i + j) false = false) := by
  induction n with
  | zero =>
    intro i
    simp [retryGo]
  | succ m ih =>
    intro i
    simp only [retryGo]
    by_cases h : p i false = true
    · simp only [h, if_true]
      constructor
      · intro hcontra
        simp at hcontra
      · intro hall
        have := hall 0 (by omega)
        simp [h] at this
    · simp only [h, Bool.false_eq_true, if_false]
      have hne : (retryGo p (i + 1) m).1 ≠ [] := by
        have := (retryGo_length p m (i + 1)).1
        intro hnil
        rw [hnil] at this
        simp at this
      obtain ⟨x, xs, hx⟩ : ∃ x xs, (retryGo p (i + 1) m).1 = x :: xs := by
        cases hl : (retryGo p (i + 1) m).1 with
        | nil => exact absurd hl hne
        | cons x xs => exact ⟨x, xs, rfl⟩
      rw [hx]
      have hstep : ((false, false) :: x :: xs).getLast? = (x :: xs).getLast? := by
        simp [List.getLast?_cons_cons]
      rw [hstep, ← hx, ih (i + 1)]
      constructor
      · intro hall j hj
        cases j with
        | zero => simpa using (Bool.not_eq_true (p i false)).mp h
        | succ j0 =>
          have := hall j0 (by omega)
          have harr : i + 1 + j0 = i + (j0 + 1) := by omega
          rw [harr] at this
          exact this
      · intro hall j hj
        have := hall (j + 1) (by omega)
        have harr : i + (j + 1) = i + 1 + j := by omega
        rw [harr] at this
        exact this

theorem retryGo_timeout_iff (p : Nat → Bool → Bool) (n : Nat) :
    ∀ i, (retryGo p i n).2 = true ↔
      ((∀ j, j < n → p (i + j) false = false) ∧ p (i + n) true = false) := by
  induction n with
  | zero =>
    intro i
    simp [retryGo]
  | succ m ih =>
    intro i
    simp only [retryGo]
    by_cases h : p i false = true
    · simp only [h, if_true]
      constructor
      · intro hcontra; simp at hcontra
      · rintro ⟨hall, -⟩
        have := hall 0 (by omega)
        simp [h] at this
    · simp only [h, Bool.false_eq_true, if_false]
      rw [ih (i + 1)]
      constructor
      · rintro ⟨hall, hlast⟩
        refine ⟨?_, ?_⟩
        · intro j hj
          cases j with
          | zero => simpa using (Bool.not_eq_true (p i false)).mp h
          | succ j0 =>
            have := hall j0 (by omega)
            have harr : i + 1 + j0 = i + (j0 + 1) := by omega
            rw [harr] at this
            exact this
        · have harr : i + 1 + m = i + (m + 1) := by omega
          rw [harr] at hlast
          exact hlast
      · rintro ⟨hall, hlast⟩
        refine ⟨?_, ?_⟩
        · intro j hj
          have := hall (j + 1) (by omega)
          have harr : i + (j + 1) = i + 1 + j := by omega
          rw [harr] at this
          exact this
        · have harr : i + (m + 1) = i + 1 + m := by omega
          rw [harr] at hlast
          exact hlast

/-- C2: for every sequence of start, connect, shutdown, crash and release
operations from a fresh handle, the lifecycle table holds: start is a
no-op when booted and otherwise moves the handle to booted; connect is a
no-op when connected and otherwise (via start) moves it to connected;
shutdown and crash are no-ops when not booted and otherwise clear booted,
connected and pid; release performs the kill in any booted state. -/
theorem lifecycle_table (ops : List MOp) (p : Nat) :
    ((runOps freshState ops).booted = true →
      Machine.start p (runOps freshState ops) = runOps freshState ops) ∧
    ((runOps freshState ops).booted = false →
      Machine.start p (runOps freshState ops) =
        { runOps freshState ops with booted := true, pid := some p }) ∧
    ((runOps freshState ops).connected = true →
      Machine.connect p (runOps freshState ops) = runOps freshState ops) ∧
    ((runOps freshState ops).connected = false →
      (Machine.connect p (runOps freshState ops)).connected = true ∧
      (Machine.connect p (runOps freshState ops)).booted = true) ∧
    ((runOps freshState ops).booted = false →
      Machine.shutdown (runOps freshState ops) = runOps freshState ops ∧
      Machine.crash (runOps freshState ops) = runOps freshState ops) ∧
    ((runOps freshState ops).booted = true →
      Machine.shutdown (runOps freshState ops) =
        { booted := false, connected := false, pid := none } ∧
      Machine.crash (runOps freshState ops) =
        { booted := false, connected := false, pid := none }) ∧
    ((runOps freshState ops).booted = true →
      (Machine.release (runOps freshState ops)).2 = true) := by
  have hinv := mInv_runOps ops freshState mInv_fresh
  set s := runOps freshState ops with hs
  obtain ⟨hc, hb⟩ := hinv
  refine ⟨?_, ?_, ?_, ?_, ?_, ?_, ?_⟩
  · intro hB
    simp [Machine.start, hB]
  · intro hB
    simp [Machine.start, hB]
  · intro hC
    simp [Machine.connect, hC]
  · intro hC
    by_cases hB : s.booted = true <;> simp [Machine.connect, Machine.start, hC, hB]
  · intro hB
    simp [Machine.shutdown, Machine.crash, Machine.waitForShutdown, hB]
  · intro hB
    simp [Machine.shutdown, Machine.crash, Machine.waitForShutdown, hB]
  · intro hB
    have := hb hB
    cases hP : s.pid with
    | none => rw [hP] at this; simp at this
    | some q => simp [Machine.release, hP]

/-- Witness for the lifecycle table: start boots a fresh handle, and
release performs the kill on a booted handle. -/
theorem lifecycle_table_witness :
    Machine.start 7 (runOps freshState []) =
      { runOps freshState [] with booted := true, pid := some 7 } ∧
    (Machine.release (runOps freshState [MOp.start 5])).2 = true :=
  ⟨(lifecycle_table [] 7).2.1 rfl,
   (lifecycle_table [MOp.start 5] 7).2.2.2.2.2.2 rfl⟩

/-- C3: retry invokes the predicate between 1 and timeout+1 times; it
returns as soon as a call with is_last_attempt false yields true; only
after timeout false results does it call the predicate with
is_last_attempt true, and the final call carries is_last_attempt true
exactly when the timeout-call budget was exhausted; if that last call also
returns false, retry raises the timeout error carrying the timeout. -/
theorem retry_call_contract (p : Nat → Bool → Bool) (t : Nat) :
    (1 ≤ (retryRun p t).1.length ∧ (retryRun p t).1.length ≤ t + 1) ∧
    (∀ k, k < t → (∀ j, j < k → p j false = false) → p k false = true →
      retryRun p t = (List.replicate k (false, false) ++ [(false, true)], none)) ∧
    ((∀ j, j < t → p j false = false) →
      retryRun p t = (List.replicate t (false, false) ++ [(true, p t true)],
        if p t true then none else some t)) ∧
    (((retryRun p t).1.getLast?.map Prod.fst = some true) ↔
      (∀ j, j < t → p j false = false)) ∧
    ((retryRun p t).2 = some t ↔
      ((∀ j, j < t → p j false = false) ∧ p t true = false)) := by
  refine ⟨?_, ?_, ?_, ?_, ?_⟩
  · simpa [retryRun] using retryGo_length p t 0
  · intro k hk hall htrue
    have := retryGo_early p k t 0 hk
      (fun j hj => by simpa using hall j hj) (by simpa using htrue)
    simp [retryRun, this]
  · intro hall
    have := retryGo_all_false p t 0 (fun j hj => by simpa using hall j hj)
    simp only [retryRun, this]
    cases hlast : p t true with
    | false => simp [hlast] at this ⊢
    | true => simp [hlast] at this ⊢
  · have := retryGo_last_flag p t 0
    simpa [retryRun] using this
  · have hiff := retryGo_timeout_iff p t 0
    simp only [retryRun]
    constructor
    · intro hsome
      by_cases hflag : (retryGo p 0 t).2 = true
      · simpa using hiff.mp hflag
      · have hg : (retryGo p 0 t).2 = false := by
          cases hg2 : (retryGo p 0 t).2
          · rfl
          · exact absurd hg2 hflag
        rw [hg] at hsome
        simp at hsome
    · intro hcond
      have hflag : (retryGo p 0 t).2 = true := hiff.mpr (by simpa using hcond)
      simp [hflag]

/-- Witness for the retry contract: an immediately-true predicate returns
after one ordinary call, and an always-false predicate exhausts the budget
and raises the timeout error. -/
theorem retry_call_contract_witness :
    retryRun (fun _ _ => true) 1 = ([(false, true)], none) ∧
    retryRun (fun _ _ => false) 1 =
      ([(false, false), (true, false)], some 1) := by
  constructor
  · have h := (retry_call_contract (fun _ _ => true) 1).2.1 0 (by omega)
      (fun j hj => by omega) rfl
    simpa using h
  · have h := (retry_call_contract (fun _ _ => false) 1).2.2.1
      (fun j hj => rfl)
    simpa using h

/- ------------------------------------------------------------------
Monitor channel (_wait_for_monitor_prompt, send_monitor_command).
The stream is modelled as the list of byte chunks successive recv(1024)
calls deliver; the end of the list (or an empty chunk) is the stream
closing, since recv returns an empty byte string exactly then.  Each chunk
is decoded with bytes.decode(), whose default is strict UTF-8: an
undecodable chunk raises UnicodeDecodeError.
------------------------------------------------------------------- -/

/-- Whether a byte is a UTF-8 continuation byte. -/
def utf8Cont (b : Nat) : Bool := 128 ≤ b && b ≤ 191

/-- Valid second byte of a three-byte sequence led by b (excludes overlong
encodings and surrogates, as the strict Python decoder does). -/
def utf8Cont3 (b c1 : Nat) : Bool :=
  if b = 0xE0 then 0xA0 ≤ c1 && c1 ≤ 0xBF
  else if b = 0xED then 0x80 ≤ c1 && c1 ≤ 0x9F
  else utf8Cont c1

/-- Valid second byte of a four-byte sequence led by b (excludes overlong
encodings and code points above 0x10FFFF). -/
def utf8Cont4 (b c1 : Nat) : Bool :=
  if b = 0xF0 then 0x90 ≤ c1 && c1 ≤ 0xBF
  else if b = 0xF4 then 0x80 ≤ c1 && c1 ≤ 0x8F
  else utf8Cont c1

/-- Strict UTF-8 decoding of a byte list to characters; none models the
UnicodeDecodeError that bytes.decode() raises on undecodable input. -/
def utf8DecodeAux : List Nat → Option (List Char)
  | [] => some []
  | b :: rest =>
    if b ≤ 0x7F then (utf8DecodeAux rest).map (fun cs => Char.ofNat b :: cs)
    else if b ≤ 0xC1 then none
    else if b ≤ 0xDF then
      match rest with
      | [] => none
      | c1 :: rest1 =>
        if utf8Cont c1 then
          (utf8DecodeAux rest1).map
            (fun cs => Char.ofNat ((b - 0xC0) <<< 6 + (c1 - 0x80)) :: cs)
        else none
    else if b ≤ 0xEF then
      match rest with
      | c1 :: c2 :: rest2 =>
        if utf8Cont3 b c1 && utf8Cont c2 then
          (utf8DecodeAux rest2).map
            (fun cs => Char.ofNat ((b - 0xE0) <<< 12 + (c1 - 0x80) <<< 6 + (c2 - 0x80)) :: cs)
        else none
      | _ => none
    else if b ≤ 0xF4 then
      match rest with
      | c1 :: c2 :: c3 :: rest3 =>
        if utf8Cont4 b c1 && utf8Cont c2 && utf8Cont c3 then
          (utf8DecodeAux rest3).map
            (fun cs => Char.ofNat
              ((b - 0xF0) <<< 18 + (c1 - 0x80) <<< 12 + (c2 - 0x80) <<< 6 + (c3 - 0x80)) :: cs)
        else none
      | _ => none
    else none

/-- Strict decoding to a string, as bytes.decode() with no errors
argument. -/
def utf8DecodeStrict (bs : List Nat) : Option String :=
  (utf8DecodeAux bs).map String.mk

/-- Embedding of the Python str.endswith test over the code point
sequence of the string. -/
def strEndsWith (s suffix : String) : Bool := List.isSuffixOf suffix.data s.data

/-- The one exception kind the monitor read can raise. -/
inductive MonErr where
  | unicodeDecodeError
deriving DecidableEq, Repr

/-- Loop of _wait_for_monitor_prompt with the accumulated answer:
receive a chunk; an absent or empty chunk (stream closed) breaks and
returns the accumulator; otherwise decode strictly, append, and stop when
the accumulator ends with the prompt marker. -/
def monitorPromptGo (acc : String) : List (List Nat) → Except MonErr String
  | [] => Except.ok acc
  | chunk :: rest =>
    if chunk.isEmpty then Except.ok acc
    else
      match utf8DecodeStrict chunk with
      | none => Except.error MonErr.unicodeDecodeError
      | some s =>
        let acc2 := acc ++ s
        if strEndsWith acc2 "(qemu) " then Except.ok acc2
        else monitorPromptGo acc2 rest

/-- Embedding of Machine._wait_for_monitor_prompt. -/
def waitForMonitorPrompt (chunks : List (List Nat)) : Except MonErr String :=
  monitorPromptGo "" chunks

/-- Embedding of Machine.send_monitor_command: the first component is the
message written to the monitor stream, the second the reply read by
_wait_for_monitor_prompt from the chunks the monitor answers with. -/
def sendMonitorCommand (command : String) (chunks : List (List Nat)) :
    String × Except MonErr String :=
  (command ++ "\n", waitForMonitorPrompt chunks)

/-- Strict decoding of a list of chunks, failing when any chunk fails. -/
def decodeChunks : List (List Nat) → Option (List String)
  | [] => some []
  | c :: r =>
    match utf8DecodeStrict c with
    | none => none
    | some s => (decodeChunks r).map (fun l => s :: l)

theorem monitorPromptGo_chars (chunks : List (List Nat)) :
    ∀ acc r, monitorPromptGo acc chunks = Except.ok r →
    ∃ k, k ≤ chunks.length ∧
      (∃ ds, decodeChunks (List.take k chunks) = some ds ∧
        r = List.foldl (fun a b => a ++ b) acc ds) ∧
      (strEndsWith r "(qemu) " = true ∨ k = chunks.length ∨
        (List.drop k chunks).head? = some []) := by
  induction chunks with
  | nil =>
    intro acc r h
    simp only [monitorPromptGo] at h
    refine ⟨0, by omega, ⟨[], by simp [decodeChunks], ?_⟩, Or.inr (Or.inl rfl)⟩
    simpa using (Except.ok.inj h).symm
  | cons c rest ih =>
    intro acc r h
    cases c with
    | nil =>
      simp only [monitorPromptGo, List.isEmpty_nil, if_true] at h
      refine ⟨0, by omega, ⟨[], by simp [decodeChunks], ?_⟩, Or.inr (Or.inr rfl)⟩
      simpa using (Except.ok.inj h).symm
    | cons b bs =>
      simp only [monitorPromptGo, List.isEmpty_cons, if_false] at h
      cases hdec : utf8DecodeStrict (b :: bs) with
      | none => rw [hdec] at h; exact absurd h (by simp)
      | some s =>
        rw [hdec] at h
        simp only at h
        by_cases hend : strEndsWith (acc ++ s) "(qemu) " = true
        · rw [if_pos hend] at h
          have hr : r = acc ++ s := (Except.ok.inj h).symm
          refine ⟨1, by simp, ⟨[s], ?_, by simp [hr]⟩, Or.inl (by rw [hr]; exact hend)⟩
          simp [decodeChunks, hdec]
        · rw [if_neg hend] at h
          obtain ⟨k, hk, ⟨ds, hds, hfold⟩, hdisj⟩ := ih (acc ++ s) r h
          refine ⟨k + 1, by simpa using hk, ⟨s :: ds, ?_, by simpa using hfold⟩, ?_⟩
          · simp [decodeChunks, hdec, hds]
          · rcases hdisj with h1 | h2 | h3
            · exact Or.inl h1
            · exact Or.inr (Or.inl (by simpa using h2))
            · exact Or.inr (Or.inr (by simpa using h3))

/-- C4 counterexample: when the monitor stream closes before any prompt,
the dialogue returns a reply that does not end with the prompt marker. -/
theorem monitor_prompt_close_counterexample :
    waitForMonitorPrompt [] = Except.ok "" ∧
    strEndsWith "" "(qemu) " = false := by
  constructor
  · rfl
  · decide

/-- C4 amended: reading accumulates strictly-decoded chunks until the
buffer ends with the prompt marker or the stream closes; the returned
reply is the accumulated text, and it ends with the prompt marker unless
the stream closed first (list exhausted or empty chunk), in which case the
partial accumulated text is returned without the marker. -/
theorem monitor_prompt_amended (chunks : List (List Nat)) (r : String)
    (h : waitForMonitorPrompt chunks = Except.ok r) :
    ∃ k, k ≤ chunks.length ∧
      (∃ ds, decodeChunks (List.take k chunks) = some ds ∧
        r = List.foldl (fun a b => a ++ b) "" ds) ∧
      (strEndsWith r "(qemu) " = true ∨ k = chunks.length ∨
        (List.drop k chunks).head? = some []) :=
  monitorPromptGo_chars chunks "" r h

/-- Witness for the amended monitor-prompt theorem at a concrete dialogue
that does reach the prompt marker. -/
theorem monitor_prompt_amended_witness :
    waitForMonitorPrompt [[40, 113, 101, 109, 117, 41, 32]] =
      Except.ok "(qemu) " ∧
    ∃ k, k ≤ ([[40, 113, 101, 109, 117, 41, 32]] : List (List Nat)).length ∧
      (∃ ds, decodeChunks (List.take k [[40, 113, 101, 109, 117, 41, 32]]) = some ds ∧
        "(qemu) " = List.foldl (fun a b => a ++ b) "" ds) ∧
      (strEndsWith "(qemu) " "(qemu) " = true ∨
        k = ([[40, 113, 101, 109, 117, 41, 32]] : List (List Nat)).length ∨
        (List.drop k [[40, 113, 101, 109, 117, 41, 32]]).head? = some []) :=
  ⟨rfl, monitor_prompt_amended [[40, 113, 101, 109, 117, 41, 32]] "(qemu) " rfl⟩

/-- C8 counterexample: a monitor read fails on undecodable input, since
the chunk is decoded with the strict default policy; byte 255 is not
valid UTF-8. -/
theorem monitor_decode_strict_counterexample :
    waitForMonitorPrompt [[255]] = Except.error MonErr.unicodeDecodeError := by
  rfl

/-- C8 amended: monitor bytes are decoded with the strict default UTF-8
policy, so the read raises UnicodeDecodeError on any nonempty chunk the
strict decoder rejects; decoding is not total and undecodable bytes are
not dropped. -/
theorem monitor_decode_strict_amended (chunk : List Nat)
    (hne : chunk ≠ []) (hdec : utf8DecodeStrict chunk = none) :
    waitForMonitorPrompt [chunk] = Except.error MonErr.unicodeDecodeError := by
  cases chunk with
  | nil => exact absurd rfl hne
  | cons b bs =>
    simp only [waitForMonitorPrompt, monitorPromptGo, List.isEmpty_cons, if_false]
    rw [hdec]
    rfl

/-- Witness for the amended strict-decoding theorem at the byte 255. -/
theorem monitor_decode_strict_amended_witness :
    waitForMonitorPrompt [[255]] = Except.error MonErr.unicodeDecodeError :=
  monitor_decode_strict_amended [255] (by simp) (by rfl)

/- ------------------------------------------------------------------
Shell channel (Machine.execute).  The reply stream is modelled as the
list of already-decoded 4096-byte chunks (decoding is lossy there and does
not matter for the claim).  Each incoming chunk is matched with
re.match against the pattern capturing everything before the sentinel and
the digits after it; re.match anchors at the start and the dot does not
cross a newline, while the whitespace class may.  On a match the captured
prefix is appended to the accumulator and the pair
(int(status), pprint(output)) is returned; pprint pretty-prints its
argument to standard output and returns None, and only this return value
flows into the result of execute.
------------------------------------------------------------------- -/

/-- Python whitespace class over the ASCII range. -/
def isPyWhitespace (c : Char) : Bool :=
  c == ' ' || c == '\t' || c == '\n' || c == '\r' || c == '\x0b' || c == '\x0c'

/-- Whether sub is a prefix of hay, on code points. -/
def startsWithChars : List Char → List Char → Bool
  | [], _ => true
  | _ :: _, [] => false
  | a :: as, b :: bs => a == b && startsWithChars as bs

/-- Value of a nonempty digit run, as int() of the captured group. -/
def digitsToNat (ds : List Char) : Nat :=
  ds.foldl (fun n c => n * 10 + (c.toNat - 48)) 0

/-- Match of the sentinel tail of the pattern at the start of cs: the
literal sentinel, then at least one whitespace character taken greedily,
then at least one digit taken greedily; returns the status digits.
Backtracking inside the whitespace run can never expose a digit, so the
greedy reading is exact. -/
def sentinelTail (cs : List Char) : Option Nat :=
  if startsWithChars ("|!=EOF".data) cs then
    let rest := cs.drop 6
    let ws := rest.takeWhile isPyWhitespace
    let rest2 := rest.dropWhile isPyWhitespace
    if ws.isEmpty then none
    else
      let ds := rest2.takeWhile Char.isDigit
      if ds.isEmpty then none else some (digitsToNat ds)
  else none

/-- Greedy search for the split of the chunk: the dot-star group is the
longest newline-free prefix after which the sentinel tail matches.  The
argument n is the length of the candidate prefix, tried longest first. -/
def sentinelMatchFrom (cs : List Char) : Nat → Option (String × Nat)
  | 0 => (sentinelTail cs).map (fun st => ("", st))
  | n + 1 =>
    match sentinelTail (cs.drop (n + 1)) with
    | some st => some (String.mk (cs.take (n + 1)), st)
    | none => sentinelMatchFrom cs n

/-- Embedding of re.match of the status-code pattern against one chunk:
some (captured output prefix, exit status) on a match. -/
def sentinelMatch (chunk : String) : Option (String × Nat) :=
  let cs := chunk.data
  sentinelMatchFrom cs (cs.takeWhile (fun c => !(c == '\n'))).length

/-- Return value of pprint: the call prints a formatted rendering of its
argument to standard output and evaluates to None; nothing of the
argument reaches the caller through the return value. -/
def pprintValue (_s : String) : Option String := none

/-- Loop of Machine.execute over the reply chunks with the accumulated
output; an exhausted stream means the loop blocks forever (none). -/
def executeLoop (acc : String) : List String → Option (Nat × Option String)
  | [] => none
  | chunk :: rest =>
    match sentinelMatch chunk with
    | some (pre, st) => some (st, pprintValue (acc ++ pre))
    | none => executeLoop (acc ++ chunk) rest

/-- Embedding of Machine.execute, given the decoded reply chunks of the
shell stream: the returned pair is (exit status, pprint return value). -/
def executeModel (chunks : List String) : Option (Nat × Option String) :=
  executeLoop "" chunks

/-- C1: evaluation of execute at the reply of a command that printed hi
and exited with status 0.  The sentinel frame is parsed and the status is
extracted, but the output component of the returned pair is the return
value of pprint, which is None, not the text hi emitted before the
sentinel. -/
theorem execute_pprint_bug :
    executeModel ["hi|!=EOF 0"] = some (0, none) ∧ pprintValue "hi" = none := by
  constructor
  · rfl
  · rfl

/- ------------------------------------------------------------------
BaseStartCommand.build_environment and BaseStartCommand.run.  A Python
dict is modelled as an association list in which a later binding for the
same key overwrites.  The expression dict(os.environ).update(m) calls the
mutating update method, whose expression value is None, and returns that
None; Popen then receives env=None, which makes the child inherit the
current environment unchanged.
------------------------------------------------------------------- -/

/-- Environment mapping, as an association list with unique keys kept by
envSet. -/
abbrev Env := List (String × String)

/-- Set one key, overwriting an existing binding. -/
def envSet : Env → String → String → Env
  | [], k, v => [(k, v)]
  | (k0, v0) :: rest, k, v =>
    if k0 = k then (k0, v) :: rest else (k0, v0) :: envSet rest k v

/-- Mutating effect of dict.update: every binding of m is written into
d. -/
def envUpdate (d m : Env) : Env :=
  m.foldl (fun acc kv => envSet acc kv.1 kv.2) d

/-- Lookup. -/
def envGet : Env → String → Option String
  | [], _ => none
  | (k0, v0) :: rest, k => if k0 = k then some v0 else envGet rest k

/-- A call of the Python method dict.update: the mutation it performs on
the receiver, and the value of the call expression, which is None. -/
structure PyUpdateCall where
  mutated : Env
  value : Option Env

/-- Semantics of d.update(m): mutates d to the merged mapping, evaluates
to None. -/
def pyDictUpdate (d m : Env) : PyUpdateCall :=
  { mutated := envUpdate d m, value := none }

/-- Embedding of BaseStartCommand.build_environment: the value of
dict(os.environ).update(bindings), which is the value of the update
call. -/
def build_environment (osEnviron : Env) (state_dir shared_dir : String) : Option Env :=
  (pyDictUpdate osEnviron
    [("TMPDIR", state_dir), ("SHARED_DIR", shared_dir), ("USE_TMPDIR", "1")]).value

/-- The merged environment the spec words mandate build_environment to
return: the inherited environment extended with the three bindings. -/
def build_environment_spec (osEnviron : Env) (state_dir shared_dir : String) : Env :=
  envUpdate osEnviron
    [("TMPDIR", state_dir), ("SHARED_DIR", shared_dir), ("USE_TMPDIR", "1")]

/-- The env argument BaseStartCommand.run passes to Popen. -/
def runEnvArg (osEnviron : Env) (state_dir shared_dir : String) : Option Env :=
  build_environment osEnviron state_dir shared_dir

/-- Environment the spawned subprocess actually sees: Popen with env=None
lets the child inherit the current environment. -/
def popenEffectiveEnv (osEnviron : Env) (envArg : Option Env) : Env :=
  envArg.getD osEnviron

theorem envGet_envSet_same (e : Env) (k v : String) :
    envGet (envSet e k v) k = some v := by
  induction e with
  | nil => simp [envSet, envGet]
  | cons kv rest ih =>
    obtain ⟨k0, v0⟩ := kv
    by_cases h : k0 = k <;> simp [envSet, envGet, h, ih]

theorem envGet_envSet_other (e : Env) (k v k2 : String) (h : k ≠ k2) :
    envGet (envSet e k v) k2 = envGet e k2 := by
  induction e with
  | nil => simp [envSet, envGet, h]
  | cons kv rest ih =>
    obtain ⟨k0, v0⟩ := kv
    by_cases h0 : k0 = k
    · subst h0
      simp [envSet, envGet, h]
    · simp [envSet, envGet, h0, ih]

/-- C6: the code slips.  build_environment evaluates
dict(os.environ).update(bindings), whose value is None, so run passes
env=None to the subprocess and the child inherits the plain current
environment; the merged mapping mandated by the spec (which does carry
TMPDIR, SHARED_DIR and USE_TMPDIR=1) is computed by the update call but
discarded. -/
theorem build_environment_returns_none (osEnviron : Env) (sd shd : String) :
    build_environment osEnviron sd shd = none ∧
    popenEffectiveEnv osEnviron (runEnvArg osEnviron sd shd) = osEnviron ∧
    envGet (build_environment_spec osEnviron sd shd) "TMPDIR" = some sd ∧
    envGet (build_environment_spec osEnviron sd shd) "SHARED_DIR" = some shd ∧
    envGet (build_environment_spec osEnviron sd shd) "USE_TMPDIR" = some "1" := by
  refine ⟨rfl, rfl, ?_, ?_, ?_⟩
  · show envGet (envSet (envSet (envSet osEnviron "TMPDIR" sd) "SHARED_DIR" shd)
      "USE_TMPDIR" "1") "TMPDIR" = some sd
    rw [envGet_envSet_other _ _ _ _ (by decide), envGet_envSet_other _ _ _ _ (by decide),
      envGet_envSet_same]
  · show envGet (envSet (envSet (envSet osEnviron "TMPDIR" sd) "SHARED_DIR" shd)
      "USE_TMPDIR" "1") "SHARED_DIR" = some shd
    rw [envGet_envSet_other _ _ _ _ (by decide), envGet_envSet_same]
  · exact envGet_envSet_same _ _ _

/- ------------------------------------------------------------------
BaseStartCommand.cmd.  The Python method builds tty_opts, display_opts
and qemu_opts, but the returned f-string interpolates only the monitor
and shell chardev flags, tty_opts and display_opts: qemu_opts is computed
and never appended.  Moreover, inside qemu_opts the four flag literals
are one implicitly concatenated string that lives entirely in the else
branch of the conditional expression, so with allow_reboot even the
computed qemu_opts would lack the device and serial flags.
------------------------------------------------------------------- -/

/-- Whether pat occurs as a contiguous substring of the string with code
point list hay. -/
def strContainsAux (sub : List Char) : List Char → Bool
  | [] => startsWithChars sub []
  | c :: t => startsWithChars sub (c :: t) || strContainsAux sub t

/-- Embedding of the Python substring test pat in s. -/
def strContains (s pat : String) : Bool := strContainsAux pat.data s.data

/-- The value the method binds to qemu_opts (computed, then unused). -/
def cmdQemuOpts (allow_reboot : Bool) (qemu_opts_env : String) : String :=
  (if allow_reboot then ""
   else " -no-reboot -device virtio-serial -device virtconsole,chardev=shell -serial stdio")
  ++ " " ++ qemu_opts_env

/-- Embedding of BaseStartCommand.cmd.  selfCmd is the launcher script,
display_available the presence of DISPLAY or WAYLAND_DISPLAY in the
environment, qemu_opts_env the value of QEMU_OPTS.  The return expression
interpolates the monitor flag, the shell chardev flag, tty_opts and
display_opts only. -/
def BaseStartCommand.cmd (selfCmd : String)
    (monitor_socket_path shell_socket_path : String)
    (allow_reboot : Bool) (tty_path : Option String)
    (display_available : Bool) (qemu_opts_env : String) : String :=
  let tty_opts : String :=
    match tty_path with
    | none => ""
    | some p =>
      " -chardev socket,server,nowait,id=console,path=" ++ p ++
        " -device virtconsole,chardev=console"
  let display_opts : String := if display_available then " -nographic" else ""
  let qemu_opts : String := cmdQemuOpts allow_reboot qemu_opts_env
  selfCmd ++ " -monitor unix:" ++ monitor_socket_path ++
    " -chardev socket,id=shell,path=" ++ shell_socket_path ++
    tty_opts ++ display_opts

/-- C7: evaluation of the start-command builder with allow_reboot false
and no tty or display.  The produced command line does contain the
monitor and shell chardev flags, but none of -device virtio-serial,
-device virtconsole,chardev=shell, -serial stdio or -no-reboot, because
qemu_opts is computed and never interpolated into the returned string. -/
theorem start_cmd_missing_qemu_opts :
    strContains (BaseStartCommand.cmd "run-test-vm" "/tmp/monitor" "/tmp/shell"
      false none false "") "-monitor unix:/tmp/monitor" = true ∧
    strContains (BaseStartCommand.cmd "run-test-vm" "/tmp/monitor" "/tmp/shell"
      false none false "") "-chardev socket,id=shell,path=/tmp/shell" = true ∧
    strContains (BaseStartCommand.cmd "run-test-vm" "/tmp/monitor" "/tmp/shell"
      false none false "") "-device virtio-serial" = false ∧
    strContains (BaseStartCommand.cmd "run-test-vm" "/tmp/monitor" "/tmp/shell"
      false none false "") "-device virtconsole,chardev=shell" = false ∧
    strContains (BaseStartCommand.cmd "run-test-vm" "/tmp/monitor" "/tmp/shell"
      false none false "") "-serial stdio" = false ∧
    strContains (BaseStartCommand.cmd "run-test-vm" "/tmp/monitor" "/tmp/shell"
      false none false "") "-no-reboot" = false ∧
    strContains (cmdQemuOpts false "") "-no-reboot" = true ∧
    strContains (cmdQemuOpts false "") "-serial stdio" = true := by
  refine ⟨?_, ?_, ?_, ?_, ?_, ?_, ?_, ?_⟩ <;> decide

/- ------------------------------------------------------------------
Machine.wait_for_unit.  check_active obtains every observation through
get_unit_info and systemctl, which call execute, and the output
component of the pair execute returns is the return value of pprint,
None (the same slip the shell-channel section records).  The embedding
keeps this chain: an execute call is described by the exit status the
guest reports and the raw text accumulated before the sentinel, and its
returned pair is (status, pprintValue raw).  get_unit_info raises the
explicit Exception on a nonzero status and otherwise reaches
lines.split, an attribute access on None raising AttributeError; the
Python membership test on None raises TypeError; dict indexing on a
missing key raises KeyError.  RetryOutcome is the outcome of a retry
whose predicate may raise: normal return, the propagated raise, or the
timeout raise.
------------------------------------------------------------------- -/

/-- Outcome of a retry whose predicate may raise e: normal return, the
propagated raise, or the timeout raise carrying the budget. -/
inductive RetryOutcome (e : Type) where
  | ok
  | raised (err : e)
  | timedOut (timeout : Nat)
deriving DecidableEq, Repr

/-- Loop of retry for an exception-raising predicate: remaining budget as
fuel, i the next call index, t0 the original timeout for the raise. -/
def retryExcGo (f : Nat → Bool → Except e Bool) (t0 : Nat) (i : Nat) :
    Nat → RetryOutcome e
  | 0 =>
    match f i true with
    | Except.error err => RetryOutcome.raised err
    | Except.ok true => RetryOutcome.ok
    | Except.ok false => RetryOutcome.timedOut t0
  | n + 1 =>
    match f i false with
    | Except.error err => RetryOutcome.raised err
    | Except.ok true => RetryOutcome.ok
    | Except.ok false => retryExcGo f t0 (i + 1) n

/-- retry over an exception-raising predicate (the same source loop as
retryRun, viewed with raise propagation). -/
def retryExc (f : Nat → Bool → Except e Bool) (timeout : Nat) : RetryOutcome e :=
  retryExcGo f timeout 0 timeout

/-- One execute call on the shell channel, described by the exit status
the guest reports and the raw output text accumulated before the
sentinel frame. -/
structure ExecObs where
  status : Nat
  rawOutput : String

/-- The pair such an execute call actually returns (see executeModel):
the output component is the return value of pprint. -/
def execReturn (o : ExecObs) : Nat × Option String :=
  (o.status, pprintValue o.rawOutput)

/-- Exceptions the wait_for_unit chain can raise. -/
inductive WUExc where
  | getInfoFailed
  | attributeError
  | keyError
  | typeError
  | unitFailed
  | inactiveNoJobs
deriving DecidableEq, Repr

/-- Python str.split on the newline character, on code points. -/
def splitLines : List Char → List (List Char)
  | [] => [[]]
  | c :: rest =>
    let r := splitLines rest
    if c == '\n' then [] :: r
    else
      match r with
      | [] => [[c]]
      | l :: ls => (c :: l) :: ls

/-- Match of one line against the key-value pattern of get_unit_info: a
nonempty run of characters other than the equals sign, the equals sign,
then the rest of the line. -/
def parseUnitInfoLine (line : List Char) : Option (String × String) :=
  let key := line.takeWhile (fun c => !(c == '='))
  match line.dropWhile (fun c => !(c == '=')) with
  | '=' :: value =>
    if key.isEmpty then none else some (String.mk key, String.mk value)
  | _ => none

/-- The mapping get_unit_info builds from the systemctl show text:
matching lines parsed, later duplicates overwriting earlier ones. -/
def parseUnitInfo (lines : String) : Env :=
  (splitLines lines.data).foldl
    (fun acc line =>
      match parseUnitInfoLine line with
      | some kv => envSet acc kv.1 kv.2
      | none => acc) []

/-- Embedding of Machine.get_unit_info, given the execute observation of
its systemctl query: a nonzero status raises the explicit Exception;
otherwise lines.split is attempted on the output component, and since
that component is the None pprint returned, the attribute access raises
AttributeError.  The parse of actual text is kept for the fidelity of
the remaining (never reached) path. -/
def getUnitInfo (o : ExecObs) : Except WUExc Env :=
  let r := execReturn o
  if r.1 ≠ 0 then Except.error WUExc.getInfoFailed
  else
    match r.2 with
    | none => Except.error WUExc.attributeError
    | some lines => Except.ok (parseUnitInfo lines)

/-- Python membership test pat in x, where x is the output component of
a systemctl return: on None it raises TypeError, on a string it is the
substring test. -/
def pyInOpt (pat : String) : Option String → Except WUExc Bool
  | none => Except.error WUExc.typeError
  | some s => Except.ok (strContains s pat)

/-- Dict indexing info[key]: a missing key raises KeyError. -/
def dictIndex (info : Env) (key : String) : Except WUExc String :=
  match envGet info key with
  | none => Except.error WUExc.keyError
  | some v => Except.ok v

/-- One polling attempt of check_active: the execute observations behind
the get_unit_info call, the list-jobs call and the re-fetch call. -/
structure UnitPoll where
  infoCall : ExecObs
  jobsCall : ExecObs
  refetchCall : ExecObs

/-- Embedding of the check_active closure, with every observation routed
through the execute chain as in the source: fetch the unit info, index
ActiveState, raise on failed, on inactive test No jobs in the list-jobs
output and re-fetch, and otherwise report whether the state is
active. -/
def checkActive (p : UnitPoll) : Except WUExc Bool :=
  match getUnitInfo p.infoCall with
  | Except.error e => Except.error e
  | Except.ok info =>
    match dictIndex info "ActiveState" with
    | Except.error e => Except.error e
    | Except.ok state =>
      if state = "failed" then Except.error WUExc.unitFailed
      else if state = "inactive" then
        match pyInOpt "No jobs" (execReturn p.jobsCall).2 with
        | Except.error e => Except.error e
        | Except.ok true =>
          match getUnitInfo p.refetchCall with
          | Except.error e => Except.error e
          | Except.ok info2 =>
            match dictIndex info2 "ActiveState" with
            | Except.error e => Except.error e
            | Except.ok state2 =>
              if state2 = state then Except.error WUExc.inactiveNoJobs
              else Except.ok (state = "active")
        | Except.ok false => Except.ok (state = "active")
      else Except.ok (state = "active")

/-- Embedding of Machine.wait_for_unit over the per-poll execute
observations; the default timeout of retry is left as a parameter. -/
def waitForUnitRun (polls : Nat → UnitPoll) (timeout : Nat) : RetryOutcome WUExc :=
  retryExc (fun i _ => checkActive (polls i)) timeout

theorem getUnitInfo_raises (o : ExecObs) :
    getUnitInfo o =
      Except.error (if o.status = 0 then WUExc.attributeError else WUExc.getInfoFailed) := by
  by_cases h : o.status = 0
  · simp [getUnitInfo, execReturn, pprintValue, h]
  · simp [getUnitInfo, execReturn, h]

theorem checkActive_raises (p : UnitPoll) :
    checkActive p =
      Except.error
        (if p.infoCall.status = 0 then WUExc.attributeError else WUExc.getInfoFailed) := by
  have h := getUnitInfo_raises p.infoCall
  simp only [checkActive, h]

/-- C5: the poll chain breaks before any state observation.  The output
component of every execute return is the None pprint returns, so
get_unit_info raises AttributeError at lines.split whenever its
systemctl call exits with status 0, and the explicit nonzero-status
Exception otherwise; hence check_active raises on every poll without
reading any ActiveState, and wait_for_unit propagates that raise out of
retry on the very first poll: whatever the guest reports, it never
returns normally and never raises the unit-failed error the claim
describes. -/
theorem wait_for_unit_attribute_error :
    (∀ o : ExecObs, (execReturn o).2 = none) ∧
    (∀ o : ExecObs, getUnitInfo o =
      Except.error (if o.status = 0 then WUExc.attributeError else WUExc.getInfoFailed)) ∧
    (∀ p : UnitPoll, checkActive p =
      Except.error
        (if p.infoCall.status = 0 then WUExc.attributeError else WUExc.getInfoFailed)) ∧
    (∀ (polls : Nat → UnitPoll) (t : Nat),
      waitForUnitRun polls t =
        RetryOutcome.raised
          (if (polls 0).infoCall.status = 0 then WUExc.attributeError
           else WUExc.getInfoFailed)) ∧
    (∀ (polls : Nat → UnitPoll) (t : Nat),
      waitForUnitRun polls t ≠ RetryOutcome.ok ∧
      waitForUnitRun polls t ≠ RetryOutcome.raised WUExc.unitFailed) := by
  have hrun : ∀ (polls : Nat → UnitPoll) (t : Nat),
      waitForUnitRun polls t =
        RetryOutcome.raised
          (if (polls 0).infoCall.status = 0 then WUExc.attributeError
           else WUExc.getInfoFailed) := by
    intro polls t
    have hca := checkActive_raises (polls 0)
    cases t with
    | zero => simp [waitForUnitRun, retryExc, retryExcGo, hca]
    | succ n => simp [waitForUnitRun, retryExc, retryExcGo, hca]
  refine ⟨fun o => rfl, getUnitInfo_raises, checkActive_raises, hrun, ?_⟩
  intro polls t
  rw [hrun polls t]
  by_cases h : (polls 0).infoCall.status = 0 <;> simp [h]

/- ------------------------------------------------------------------
Machine._get_screen_text_variants and its callers.  The TemporaryDirectory
context manager yields a plain str, and the method applies the / operator
to it: str defines no __truediv__ and str is not a Path, so the expression
raises TypeError before the screendump monitor command is sent.  PyPathVal
distinguishes the two runtime types the / operator distinguishes; the OCR
pipeline is an oracle parameter, never reached.
------------------------------------------------------------------- -/

/-- Exceptions of the screen-text paths. -/
inductive PyExc where
  | typeError
  | indexError
deriving DecidableEq, Repr

/-- A value that is either a plain str or a pathlib Path. -/
inductive PyPathVal where
  | pstr (s : String)
  | ppath (s : String)
deriving DecidableEq, Repr

/-- Semantics of the / operator on these values: Path on the left joins;
a str on the left has no __truediv__, and only a Path right operand could
rescue the call through __rtruediv__, so str / str raises TypeError. -/
def pyTrueDiv : PyPathVal → PyPathVal → Except PyExc PyPathVal
  | PyPathVal.ppath p, PyPathVal.pstr s => Except.ok (PyPathVal.ppath (p ++ "/" ++ s))
  | PyPathVal.ppath p, PyPathVal.ppath s => Except.ok (PyPathVal.ppath (p ++ "/" ++ s))
  | PyPathVal.pstr p, PyPathVal.ppath s => Except.ok (PyPathVal.ppath (p ++ "/" ++ s))
  | PyPathVal.pstr _, PyPathVal.pstr _ => Except.error PyExc.typeError

/-- Trace and result of one screen-text call: the monitor commands issued
and the outcome. -/
structure ScreenTextRun where
  monitorCmds : List String
  result : Except PyExc (List String)

/-- Embedding of Machine._get_screen_text_variants: join the temporary
directory (a str) with the literal ppm via the / operator; on success a
screendump monitor command would be issued and the OCR oracle consulted;
the join raises first. -/
def getScreenTextVariantsRun (tmpdir : String)
    (ocr : String → List Nat → List String) (model_ids : List Nat) : ScreenTextRun :=
  match pyTrueDiv (PyPathVal.pstr tmpdir) (PyPathVal.pstr "ppm") with
  | Except.error e => { monitorCmds := [], result := Except.error e }
  | Except.ok (PyPathVal.ppath p) =>
    { monitorCmds := ["screendump " ++ p], result := Except.ok (ocr p model_ids) }
  | Except.ok (PyPathVal.pstr p) =>
    { monitorCmds := ["screendump " ++ p], result := Except.ok (ocr p model_ids) }

/-- Embedding of Machine.get_screen_text: the variants call with model
list [2], indexed at 0 (an empty result would raise IndexError). -/
def getScreenTextRun (tmpdir : String)
    (ocr : String → List Nat → List String) : List String × Except PyExc String :=
  let r := getScreenTextVariantsRun tmpdir ocr [2]
  (r.monitorCmds,
    match r.result with
    | Except.error e => Except.error e
    | Except.ok [] => Except.error PyExc.indexError
    | Except.ok (v :: _) => Except.ok v)

/-- Loop of wait_for_text: retry over the screen_matches closure, which
calls get_screen_text_variants with models 0, 1 and 2; a raise inside the
predicate propagates out of retry at once.  Returns the accumulated
monitor commands and the outcome. -/
def waitForTextGo (found : String → Bool) (tmpdirs : Nat → String)
    (ocr : String → List Nat → List String) (t0 : Nat) (i : Nat) :
    Nat → List String × RetryOutcome PyExc
  | 0 =>
    let r := getScreenTextVariantsRun (tmpdirs i) ocr [0, 1, 2]
    (r.monitorCmds,
      match r.result with
      | Except.error e => RetryOutcome.raised e
      | Except.ok vs =>
        if vs.any found then RetryOutcome.ok else RetryOutcome.timedOut t0)
  | n + 1 =>
    let r := getScreenTextVariantsRun (tmpdirs i) ocr [0, 1, 2]
    match r.result with
    | Except.error e => (r.monitorCmds, RetryOutcome.raised e)
    | Except.ok vs =>
      if vs.any found then (r.monitorCmds, RetryOutcome.ok)
      else
        let r2 := waitForTextGo found tmpdirs ocr t0 (i + 1) n
        (r.monitorCmds ++ r2.1, r2.2)

/-- Embedding of Machine.wait_for_text. -/
def waitForTextRun (found : String → Bool) (tmpdirs : Nat → String)
    (ocr : String → List Nat → List String) (timeout : Nat) :
    List String × RetryOutcome PyExc :=
  waitForTextGo found tmpdirs ocr timeout 0 timeout

/-- C9: every call of get_screen_text_variants, get_screen_text or
wait_for_text raises TypeError at the path join of the plain temporary
directory string, before any monitor command is issued: no screendump is
requested and no OCR result is returned. -/
theorem screen_text_type_error (tmpdir : String)
    (ocr : String → List Nat → List String) (model_ids : List Nat)
    (found : String → Bool) (tmpdirs : Nat → String) (t : Nat) :
    getScreenTextVariantsRun tmpdir ocr model_ids =
      { monitorCmds := [], result := Except.error PyExc.typeError } ∧
    getScreenTextRun tmpdir ocr = ([], Except.error PyExc.typeError) ∧
    waitForTextRun found tmpdirs ocr t =
      ([], RetryOutcome.raised PyExc.typeError) := by
  refine ⟨rfl, rfl, ?_⟩
  cases t with
  | zero => rfl
  | succ n => rfl

/- ------------------------------------------------------------------
Machine.wait_for_console_text.  The serial reader publishes console lines
in order; the loop pulls with last_lines.get(), a Queue.get call in its
default blocking mode, which waits until an item is available and never
raises queue.Empty; the except queue.Empty handler would sleep one guest
second and resume.  Lines are modelled by the oracle of delivered lines;
the loop carries the growing buffer (console.write appends the line with
no separator) and fuel bounds the modelled run length.
------------------------------------------------------------------- -/

/-- Result of a Queue.get call. -/
inductive QGetResult where
  | item (line : String)
  | emptyExc
deriving DecidableEq, Repr

/-- Semantics of Queue.get: in blocking mode (the default, used by
wait_for_console_text) it waits for the next delivered line and never
raises; only a non-blocking get can raise queue.Empty when nothing is
available at call time. -/
def queueGet (block : Bool) (available : Bool) (lines : Nat → String) (i : Nat) :
    QGetResult :=
  if block then QGetResult.item (lines i)
  else if available then QGetResult.item (lines i) else QGetResult.emptyExc

/-- Outcome of a modelled wait_for_console_text run: how often the
empty-queue handler ran, and whether the regex matched within the
fuel. -/
structure ConsoleRun where
  sleeps : Nat
  found : Bool
deriving DecidableEq, Repr

/-- Loop of wait_for_console_text: pull a line with a blocking get (the
availability flag of the moment is irrelevant to a blocking get), append
it to the buffer, search the whole buffer; on the empty-queue exception
the handler would sleep one guest second and resume. -/
def waitForConsoleTextGo (found : String → Bool) (avail : Nat → Bool)
    (lines : Nat → String) : String → Nat → Nat → ConsoleRun
  | _, _, 0 => { sleeps := 0, found := false }
  | buffer, i, fuel + 1 =>
    match queueGet true (avail i) lines i with
    | QGetResult.item l =>
      let buffer2 := buffer ++ l
      if found buffer2 then { sleeps := 0, found := true }
      else waitForConsoleTextGo found avail lines buffer2 (i + 1) fuel
    | QGetResult.emptyExc =>
      let r := waitForConsoleTextGo found avail lines buffer i fuel
      { r with sleeps := r.sleeps + 1 }

/-- Embedding of Machine.wait_for_console_text. -/
def waitForConsoleText (found : String → Bool) (avail : Nat → Bool)
    (lines : Nat → String) (fuel : Nat) : ConsoleRun :=
  waitForConsoleTextGo found avail lines "" 0 fuel

theorem waitForConsoleTextGo_sleeps (found : String → Bool) (avail : Nat → Bool)
    (lines : Nat → String) (fuel : Nat) :
    ∀ buffer i, (waitForConsoleTextGo found avail lines buffer i fuel).sleeps = 0 := by
  induction fuel with
  | zero => intro buffer i; rfl
  | succ n ih =>
    intro buffer i
    simp only [waitForConsoleTextGo, queueGet, if_true]
    by_cases h : found (buffer ++ lines i) = true
    · simp [h]
    · simp only [h, Bool.false_eq_true, if_false]
      exact ih (buffer ++ lines i) (i + 1)

/-- C10: the empty-queue handler of wait_for_console_text is unreachable.
A blocking Queue.get never yields the empty-queue exception, whatever the
availability of items at call time, so in every modelled run the handler
runs zero times and each iteration advances by exactly the next delivered
console line. -/
theorem console_queue_handler_dead :
    (∀ (available : Bool) (lines : Nat → String) (i : Nat),
      queueGet true available lines i = QGetResult.item (lines i)) ∧
    (∀ (found : String → Bool) (avail : Nat → Bool) (lines : Nat → String)
      (fuel : Nat), (waitForConsoleText found avail lines fuel).sleeps = 0) := by
  constructor
  · intro available lines i
    rfl
  · intro found avail lines fuel
    exact waitForConsoleTextGo_sleeps found avail lines fuel "" 0
